import Mathlib

/-!
Verification of the streak-and-leaderboard engine of the Lean Screen
team screen-time tracker.

The embedding models:
* `src/src/lib/weekUtils.ts` — `getWeekStartDate` (period calculator);
* the `update_user_streak` trigger function of the weekly migration
  (`src/unnamed/part_000`, lines 118–171) — streak engine;
* the `get_leaderboard` SQL function of the same migration
  (lines 181–234) — range resolution, aggregation, ranking;
* the client-side duration validation of `src/src/pages/LogsPage.tsx`
  (`handleSubmit`) and the `screen_time_logs_minutes_check`
  constraint of the weekly migration.

Dates are modelled as integers counting days from the Unix epoch
(1970-01-01, a Thursday), so day-of-week `0 = Sunday` is
`(n + 4) % 7`, matching both JavaScript's `Date.getDay()` and
PostgreSQL's `EXTRACT(DOW FROM ...)`.
-/

namespace LeanScreen

/-- Day-of-week index (`0 = Sunday`) of an epoch day number, as computed
by both JS `getDay()` and SQL `EXTRACT(DOW FROM d)`. -/
def dayOfWeek (n : Int) : Int := (n + 4) % 7

/-- A JS `Date` value, at minute resolution: the calendar day (epoch day
number) and the minutes elapsed since that day's midnight. -/
structure JSDate where
  day : Int
  minutesOfDay : Int
deriving Repr, DecidableEq

/-- `getWeekStartDate` from `weekUtils.ts`:
`const day = d.getDay(); const diff = day; d.setDate(d.getDate() - diff);
d.setHours(0,0,0,0);` — move back `getDay()` days, truncate to midnight. -/
def getWeekStartDate (d : JSDate) : JSDate :=
  { day := d.day - dayOfWeek d.day, minutesOfDay := 0 }

/-! ### Streak engine (`update_user_streak`, weekly migration) -/

/-- One row of `user_streaks`, the fields read and written by the
trigger. `last_log_week_start` is a nullable date column. -/
structure StreakState where
  current_streak : Int
  longest_streak : Int
  last_log_week_start : Option Int
deriving Repr, DecidableEq

/-- Outer guard of the trigger:
`v_last_week IS NULL OR NEW.week_start_date > v_last_week`
(a comparison against SQL NULL is not true). -/
def weekIsNewer : Option Int → Int → Bool
  | none, _ => true
  | some l, p => decide (l < p)

/-- First inner condition:
`v_last_week IS NULL OR NEW.week_start_date = v_last_week + INTERVAL '7 days'`. -/
def continuesStreak : Option Int → Int → Bool
  | none, _ => true
  | some l, p => decide (p = l + 7)

/-- The `ELSIF NEW.week_start_date = v_last_week` condition
(false when `v_last_week` is NULL). -/
def isSameWeek : Option Int → Int → Bool
  | none, _ => false
  | some l, p => decide (p = l)

/-- `GREATEST(NEW.week_start_date, v_last_week)`; PostgreSQL's
`GREATEST` ignores NULL arguments. -/
def greatestWeek (p : Int) : Option Int → Int
  | none => p
  | some l => max p l

/-- The path condition under which the trigger's same-week `ELSIF`
branch would execute: the row exists, the outer newer-week guard
passed, the continues-streak test failed, and the same-week test
succeeded. -/
def samePeriodBranchTaken (last : Option Int) (p : Int) : Bool :=
  weekIsNewer last p && !continuesStreak last p && isSameWeek last p

/-- The `update_user_streak` trigger of the weekly migration, as the
function from the user's stored streak row (if any) and the
`week_start_date` of a newly inserted non-deleted log to the streak row
after the trigger runs.  If no row exists one is created as
`(1, 1, NEW.week_start_date)`; otherwise the row is updated only when
the outer guard passes. -/
def update_user_streak (s? : Option StreakState) (p : Int) : StreakState :=
  match s? with
  | none => { current_streak := 1, longest_streak := 1, last_log_week_start := some p }
  | some s =>
    if weekIsNewer s.last_log_week_start p then
      let c :=
        if continuesStreak s.last_log_week_start p then s.current_streak + 1
        else if isSameWeek s.last_log_week_start p then s.current_streak
        else 1
      let lg := if s.longest_streak < c then c else s.longest_streak
      { current_streak := c, longest_streak := lg,
        last_log_week_start := some (greatestWeek p s.last_log_week_start) }
    else s

/-- The streak row produced by a sequence of accepted (non-deleted) log
inserts for one user, firing the trigger once per insert, starting from
no stored row.  `none` only for the empty sequence. -/
def runStreak (l : List Int) : Option StreakState :=
  l.foldl (fun s p => some (update_user_streak s p)) none

/-! ### Range resolution (`get_leaderboard`, weekly migration) -/

/-- `'1900-01-01'::date` as an epoch day number (25567 days before
1970-01-01). -/
def epochFloor : Int := -25567

/-- The `CASE period ... END CASE` start-date computation of
`get_leaderboard`, with `today = CURRENT_DATE`:
`daily` → `CURRENT_DATE - EXTRACT(DOW) days`;
`weekly` → the same minus 21 days; `monthly` → `CURRENT_DATE - 84`;
`all_time` → 1900-01-01; any other string → `CURRENT_DATE - 28`. -/
def resolveStartDate (period : String) (today : Int) : Int :=
  if period = "daily" then today - dayOfWeek today
  else if period = "weekly" then today - dayOfWeek today - 21
  else if period = "monthly" then today - 84
  else if period = "all_time" then epochFloor
  else today - 28

/-! ### Entry validation -/

/-- The client-side validation of `LogsPage.tsx`'s `handleSubmit`:
`if (totalMinutes <= 0 || totalMinutes > 1440)` the submission is
rejected with a validation error before any write. -/
def handleSubmitRejects (totalMinutes : Int) : Bool :=
  decide (totalMinutes ≤ 0) || decide (1440 < totalMinutes)

/-- `screen_time_logs_minutes_check` of the weekly migration:
`CHECK (minutes >= 0 AND minutes <= 10080)`. -/
def screen_time_logs_minutes_check (minutes : Int) : Bool :=
  decide (0 ≤ minutes) && decide (minutes ≤ 10080)

/-! ### Aggregation (`get_leaderboard` totals) -/

/-- One row of `screen_time_logs`, the columns the leaderboard query
reads.  `deleted_at` carries the soft-delete timestamp. -/
structure LogRow where
  user_id : Nat
  week_start_date : Int
  minutes : Int
  deleted_at : Option Int
deriving Repr, DecidableEq

/-- The `LEFT JOIN screen_time_logs` condition of `get_leaderboard`:
`stl.user_id = u.id AND stl.week_start_date >= start_date AND
stl.deleted_at IS NULL`. -/
def logInRange (uid : Nat) (start : Int) (e : LogRow) : Bool :=
  decide (e.user_id = uid) && decide (start ≤ e.week_start_date) &&
    e.deleted_at.isNone

/-- `COALESCE(SUM(stl.minutes), 0)` for one user: the sum of `minutes`
over the joined log rows (0 when no row matches). -/
def total_minutes (logs : List LogRow) (uid : Nat) (start : Int) : Int :=
  ((logs.filter (logInRange uid start)).map (·.minutes)).sum

/-- The total as claim C4 states it: `durationMinutes` summed over the
user's non-deleted entries whose `periodStart` lies in `[start, now]`
(both bounds enforced).  Written from the claim's words, for comparison
with `total_minutes`. -/
def claimedTotalMinutes (logs : List LogRow) (uid : Nat) (start now : Int) : Int :=
  ((logs.filter (fun e =>
      decide (e.user_id = uid) && decide (start ≤ e.week_start_date) &&
        decide (e.week_start_date ≤ now) && e.deleted_at.isNone)).map
    (·.minutes)).sum

/-- The amended description of the code's aggregation: each entry of the
list contributes its minutes exactly when it belongs to the user, is not
soft-deleted, and its period start is on or after `start`; there is no
upper bound, so future-dated entries contribute too. -/
def amendedTotalMinutes (logs : List LogRow) (uid : Nat) (start : Int) : Int :=
  match logs with
  | [] => 0
  | e :: rest =>
    (if e.user_id = uid ∧ e.deleted_at = none ∧ start ≤ e.week_start_date
      then e.minutes else 0) + amendedTotalMinutes rest uid start

/-! ### Leaderboard builder (`get_leaderboard` query) -/

/-- One row of `users`, the columns the leaderboard query reads. -/
structure UserRow where
  id : Nat
  display_name : String
  avatar_url : Option String
  deleted_at : Option Int
deriving Repr, DecidableEq

/-- One row of `user_settings` (`user_id` is unique in the schema). -/
structure SettingsRow where
  user_id : Nat
  show_on_leaderboard : Bool
deriving Repr, DecidableEq

/-- One row of `user_streaks`, as read by the leaderboard query. -/
structure StreakRow where
  user_id : Nat
  current_streak : Int
deriving Repr, DecidableEq

/-- The tables `get_leaderboard` reads. -/
structure DB where
  users : List UserRow
  logs : List LogRow
  settings : List SettingsRow
  streaks : List StreakRow
deriving Repr

/-- The `LEFT JOIN user_settings` lookup: the user's
`show_on_leaderboard` flag, or `none` when no settings row exists. -/
def showOnLeaderboard (settings : List SettingsRow) (uid : Nat) : Option Bool :=
  (settings.find? (fun s => s.user_id == uid)).map (·.show_on_leaderboard)

/-- `ust.show_on_leaderboard = true OR ust.show_on_leaderboard IS NULL`. -/
def visibleOnLeaderboard (settings : List SettingsRow) (uid : Nat) : Bool :=
  match showOnLeaderboard settings uid with
  | some b => b
  | none => true

/-- `COALESCE(us.current_streak, 0)` via the `LEFT JOIN user_streaks`. -/
def currentStreakOf (streaks : List StreakRow) (uid : Nat) : Int :=
  match streaks.find? (fun s => s.user_id == uid) with
  | some r => r.current_streak
  | none => 0

/-- One row of the `get_leaderboard` result table. -/
structure LBRow where
  user_id : Nat
  display_name : String
  avatar_url : Option String
  total_minutes : Int
  current_streak : Int
  rank : Nat
deriving Repr, DecidableEq

/-- The grouped candidate users after the `WHERE` clause:
`u.deleted_at IS NULL AND (ust.show_on_leaderboard = true OR
ust.show_on_leaderboard IS NULL)`. -/
def whereUsers (db : DB) : List UserRow :=
  db.users.filter
    (fun u => u.deleted_at.isNone && visibleOnLeaderboard db.settings u.id)

/-- The candidate users after `HAVING COALESCE(SUM(stl.minutes), 0) > 0`. -/
def havingUsers (db : DB) (start : Int) : List UserRow :=
  (whereUsers db).filter (fun u => decide (0 < total_minutes db.logs u.id start))

/-- `RANK() OVER (ORDER BY COALESCE(SUM(stl.minutes), 0) DESC)`: one
plus the number of post-`HAVING` rows with strictly greater total. -/
def rankOf (db : DB) (start : Int) (u : UserRow) : Nat :=
  1 + (havingUsers db start).countP
    (fun v => decide (total_minutes db.logs u.id start
      < total_minutes db.logs v.id start))

/-- The `SELECT` list of `get_leaderboard` for one grouped user. -/
def toLBRow (db : DB) (start : Int) (u : UserRow) : LBRow :=
  { user_id := u.id, display_name := u.display_name,
    avatar_url := u.avatar_url,
    total_minutes := total_minutes db.logs u.id start,
    current_streak := currentStreakOf db.streaks u.id,
    rank := rankOf db start u }

/-- The result rows before `ORDER BY`/`LIMIT`, ranks attached. -/
def rankedRows (db : DB) (start : Int) : List LBRow :=
  (havingUsers db start).map (toLBRow db start)

/-- The `ORDER BY total_minutes DESC, u.display_name ASC` order: row `a`
may precede row `b`. -/
def lbBefore (a b : LBRow) : Prop :=
  b.total_minutes < a.total_minutes ∨
    (a.total_minutes = b.total_minutes ∧ a.display_name ≤ b.display_name)

instance : DecidableRel lbBefore := fun a b =>
  decidable_of_iff
    (b.total_minutes < a.total_minutes ∨
      (a.total_minutes = b.total_minutes ∧
        a.display_name.toList ≤ b.display_name.toList))
    (or_congr Iff.rfl (and_congr Iff.rfl String.le_iff_toList_le.symm))

instance : IsTotal LBRow lbBefore where
  total a b := by
    rcases lt_trichotomy a.total_minutes b.total_minutes with h | h | h
    · exact Or.inr (Or.inl h)
    · rcases le_total a.display_name b.display_name with hn | hn
      · exact Or.inl (Or.inr ⟨h, hn⟩)
      · exact Or.inr (Or.inr ⟨h.symm, hn⟩)
    · exact Or.inl (Or.inl h)

instance : IsTrans LBRow lbBefore where
  trans a b c hab hbc := by
    rcases hab with h1 | ⟨h1, hn1⟩
    · rcases hbc with h2 | ⟨h2, _⟩
      · exact Or.inl (h2.trans h1)
      · exact Or.inl (h2 ▸ h1)
    · rcases hbc with h2 | ⟨h2, hn2⟩
      · exact Or.inl (h1 ▸ h2)
      · exact Or.inr ⟨h1.trans h2, hn1.trans hn2⟩

/-- The rows sorted by the `ORDER BY` clause. -/
def sortedRows (db : DB) (start : Int) : List LBRow :=
  List.insertionSort lbBefore (rankedRows db start)

/-- The `get_leaderboard` function: resolve the start date from the
period name and `CURRENT_DATE`, build the filtered/grouped rows, rank,
sort, and truncate to `limit_count`. -/
def get_leaderboard (db : DB) (period : String) (limit_count : Nat)
    (today : Int) : List LBRow :=
  (sortedRows db (resolveStartDate period today)).take limit_count

end LeanScreen

namespace LeanScreen

/-- C9: `getWeekStartDate` returns a Sunday at midnight, and the
input day lies 0–6 days after the returned week start. -/
theorem getWeekStartDate_sunday_and_range (d : JSDate) :
    dayOfWeek (getWeekStartDate d).day = 0 ∧
    (getWeekStartDate d).minutesOfDay = 0 ∧
    0 ≤ d.day - (getWeekStartDate d).day ∧
    d.day - (getWeekStartDate d).day ≤ 6 := by
  refine ⟨?_, rfl, ?_, ?_⟩
  · show (d.day - (d.day + 4) % 7 + 4) % 7 = 0
    omega
  · show 0 ≤ d.day - (d.day - dayOfWeek d.day)
    have := Int.emod_nonneg (d.day + 4) (by norm_num : (7:Int) ≠ 0)
    simp only [dayOfWeek]
    omega
  · show d.day - (d.day - dayOfWeek d.day) ≤ 6
    have := Int.emod_lt_of_pos (d.day + 4) (by norm_num : (0:Int) < 7)
    simp only [dayOfWeek]
    omega

/-- C10: the same-week `ELSIF` branch of `update_user_streak` is dead
code — its path condition (outer newer-week guard true, continues-streak
test false, same-week test true) is unsatisfiable, so duplicate-period
no-op behaviour comes only from the outer guard. -/
theorem samePeriodBranch_unreachable (last : Option Int) (p : Int) :
    samePeriodBranchTaken last p = false := by
  cases last with
  | none => simp [samePeriodBranchTaken, isSameWeek]
  | some l =>
    simp only [samePeriodBranchTaken, weekIsNewer, continuesStreak, isSameWeek,
      Bool.and_eq_false_iff, decide_eq_false_iff_not, Bool.not_eq_true',
      Bool.and_eq_true, decide_eq_true_eq]
    omega

/-- C7: a backfilled entry (`P ≤ L`) leaves every field of the stored
streak row unchanged. -/
theorem backfill_no_state_change (c lg L p : Int) (h : p ≤ L) :
    update_user_streak
        (some { current_streak := c, longest_streak := lg,
                last_log_week_start := some L }) p
      = { current_streak := c, longest_streak := lg,
          last_log_week_start := some L } := by
  simp only [update_user_streak, weekIsNewer]
  rw [if_neg]
  simp only [decide_eq_true_eq]
  omega

/-- Witness for C7 at `c = 3`, `lg = 5`, `L = 14`, `p = 7`. -/
theorem backfill_no_state_change_witness :
    update_user_streak
        (some { current_streak := 3, longest_streak := 5,
                last_log_week_start := some 14 }) 7
      = { current_streak := 3, longest_streak := 5,
          last_log_week_start := some 14 } :=
  backfill_no_state_change 3 5 14 7 (by decide)

/-- C1: from a stored state `(k, lg, some L)`, an entry at
`L + 7` (the next period) advances `current_streak` to `k + 1`; an entry
at `L + 7·j` for `j ≥ 2` (two or more periods later) resets
`current_streak` to `1`; an entry at exactly `L` leaves the state
unchanged. -/
theorem streak_continuity (k lg L : Int) :
    (update_user_streak
        (some { current_streak := k, longest_streak := lg,
                last_log_week_start := some L }) (L + 7)).current_streak = k + 1 ∧
    (∀ j : Int, 2 ≤ j →
      (update_user_streak
          (some { current_streak := k, longest_streak := lg,
                  last_log_week_start := some L }) (L + 7 * j)).current_streak = 1) ∧
    update_user_streak
        (some { current_streak := k, longest_streak := lg,
                last_log_week_start := some L }) L
      = { current_streak := k, longest_streak := lg,
          last_log_week_start := some L } := by
  refine ⟨?_, ?_, ?_⟩
  · simp only [update_user_streak, weekIsNewer, continuesStreak]
    rw [if_pos (by simp only [decide_eq_true_eq]; omega),
      if_pos (by simp only [decide_eq_true_eq])]
  · intro j hj
    simp only [update_user_streak, weekIsNewer, continuesStreak, isSameWeek]
    rw [if_pos (by simp only [decide_eq_true_eq]; omega),
      if_neg (by simp only [decide_eq_true_eq]; omega),
      if_neg (by simp only [decide_eq_true_eq]; omega)]
  · simp [update_user_streak, weekIsNewer]

/-- Witness for C1 at `k = 2`, `lg = 5`, `L = 0`, with `j = 2`. -/
theorem streak_continuity_witness :
    (update_user_streak
        (some { current_streak := 2, longest_streak := 5,
                last_log_week_start := some 0 }) 7).current_streak = 3 ∧
    (update_user_streak
        (some { current_streak := 2, longest_streak := 5,
                last_log_week_start := some 0 }) 14).current_streak = 1 ∧
    update_user_streak
        (some { current_streak := 2, longest_streak := 5,
                last_log_week_start := some 0 }) 0
      = { current_streak := 2, longest_streak := 5,
          last_log_week_start := some 0 } := by
  obtain ⟨h1, h2, h3⟩ := streak_continuity 2 5 0
  exact ⟨h1, by have := h2 2 (by decide); norm_num at this ⊢; exact this, h3⟩

/-- One trigger firing never decreases `longest_streak`. -/
lemma longest_mono_step (s : StreakState) (p : Int) :
    s.longest_streak ≤ (update_user_streak (some s) p).longest_streak := by
  simp only [update_user_streak]
  split
  · dsimp only
    split <;> omega
  · exact le_refl _

/-- One trigger firing establishes `current_streak ≤ longest_streak`,
provided the previous row (if consulted unchanged) satisfied it. -/
lemma inv_step (s? : Option StreakState) (p : Int)
    (h : ∀ s ∈ s?, s.current_streak ≤ s.longest_streak) :
    (update_user_streak s? p).current_streak
      ≤ (update_user_streak s? p).longest_streak := by
  match s? with
  | none => simp [update_user_streak]
  | some s =>
    simp only [update_user_streak]
    split
    · dsimp only
      split <;> omega
    · exact h s rfl

/-- The invariant holds after any fold of the trigger from any
invariant-satisfying accumulator. -/
lemma runStreak_inv_aux (l : List Int) (acc : Option StreakState)
    (hacc : ∀ s ∈ acc, s.current_streak ≤ s.longest_streak) :
    ∀ s, l.foldl (fun s p => some (update_user_streak s p)) acc = some s →
      s.current_streak ≤ s.longest_streak := by
  induction l generalizing acc with
  | nil => intro s hs; exact hacc s hs
  | cons p rest ih =>
    intro s hs
    exact ih (some (update_user_streak acc p))
      (by intro t ht; cases ht; exact inv_step acc p hacc) s hs

/-- C3: after any nonempty sequence of accepted inserts the derived
streak row satisfies `current_streak ≤ longest_streak`, and the next
trigger firing can only keep or increase `longest_streak`. -/
theorem longest_streak_invariant (l : List Int) (s : StreakState)
    (h : runStreak l = some s) :
    s.current_streak ≤ s.longest_streak ∧
    ∀ p, s.longest_streak ≤ (update_user_streak (some s) p).longest_streak := by
  refine ⟨runStreak_inv_aux l none (by intro t ht; cases ht) s h, ?_⟩
  intro p
  exact longest_mono_step s p

/-- Witness for C3 on the insert sequence `[0, 7]`, next insert at 21. -/
theorem longest_streak_invariant_witness :
    (2 : Int) ≤ 2 ∧
    ({ current_streak := 2, longest_streak := 2,
       last_log_week_start := some 7 } : StreakState).longest_streak
      ≤ (update_user_streak
          (some { current_streak := 2, longest_streak := 2,
                  last_log_week_start := some 7 }) 21).longest_streak := by
  have h := longest_streak_invariant [0, 7]
    { current_streak := 2, longest_streak := 2, last_log_week_start := some 7 }
    (by decide)
  exact ⟨h.1, h.2 21⟩

/-- C2 counterexample, at `today = 6` (1970-01-07, a Wednesday): the
code's `monthly` start is `today − 84`, not the claimed
`currentPeriodStart − 84`, and the unrecognized-name start
(`today − 28`) differs from the `weekly` start. -/
theorem resolveStartDate_counterexample :
    resolveStartDate "monthly" 6 ≠ 6 - dayOfWeek 6 - 84 ∧
    resolveStartDate "abc" 6 ≠ resolveStartDate "weekly" 6 := by
  constructor <;> decide

/-- C2 amended: `daily` maps to the current period start, `weekly` to
the current period start minus 21 days, `monthly` to `CURRENT_DATE − 84`
(not period-aligned), `all_time` to 1900-01-01, and any unrecognized
name to `CURRENT_DATE − 28` — a range that never coincides with the
`weekly` one. -/
theorem resolveStartDate_spec (today : Int) (p : String)
    (h1 : p ≠ "daily") (h2 : p ≠ "weekly") (h3 : p ≠ "monthly")
    (h4 : p ≠ "all_time") :
    resolveStartDate "daily" today = today - dayOfWeek today ∧
    resolveStartDate "weekly" today = today - dayOfWeek today - 21 ∧
    resolveStartDate "monthly" today = today - 84 ∧
    resolveStartDate "all_time" today = epochFloor ∧
    resolveStartDate p today = today - 28 ∧
    resolveStartDate p today ≠ resolveStartDate "weekly" today := by
  have hresolve : resolveStartDate p today = today - 28 := by
    simp only [resolveStartDate, if_neg h1, if_neg h2, if_neg h3, if_neg h4]
  refine ⟨by simp [resolveStartDate], by simp [resolveStartDate],
    by simp [resolveStartDate], by simp [resolveStartDate], hresolve, ?_⟩
  rw [hresolve]
  have hw : resolveStartDate "weekly" today = today - dayOfWeek today - 21 := by
    simp [resolveStartDate]
  rw [hw]
  have h0 : 0 ≤ (today + 4) % 7 := Int.emod_nonneg _ (by norm_num)
  have h7 : (today + 4) % 7 < 7 := Int.emod_lt_of_pos _ (by norm_num)
  simp only [dayOfWeek]
  omega

/-- Witness for C2's amended theorem at `today = 6`, name `"abc"`. -/
theorem resolveStartDate_spec_witness :
    resolveStartDate "daily" 6 = 6 - dayOfWeek 6 ∧
    resolveStartDate "weekly" 6 = 6 - dayOfWeek 6 - 21 ∧
    resolveStartDate "monthly" 6 = 6 - 84 ∧
    resolveStartDate "all_time" 6 = epochFloor ∧
    resolveStartDate "abc" 6 = 6 - 28 ∧
    resolveStartDate "abc" 6 ≠ resolveStartDate "weekly" 6 :=
  resolveStartDate_spec 6 "abc" (by decide) (by decide) (by decide) (by decide)

/-- C8: the client validation step rejects duration 5000 (within the
spec's and the database's accepted interval `[0, 10080]`) and rejects
duration 0, while the migration's own check constraint accepts both —
the stale client check contradicts the weekly schema. -/
theorem handleSubmit_rejects_valid_durations :
    handleSubmitRejects 5000 = true ∧ handleSubmitRejects 0 = true ∧
    screen_time_logs_minutes_check 5000 = true ∧
    screen_time_logs_minutes_check 0 = true ∧
    handleSubmitRejects 1440 = false := by
  decide

/-- C4 counterexample: a single non-deleted entry of 500 minutes dated
10 days after the epoch is counted by the code's aggregation for the
range starting at 0 even when `now = 3` lies before it, whereas the
claim's bounded sum assigns total 0. -/
theorem aggregation_counterexample :
    total_minutes [{ user_id := 1, week_start_date := 10, minutes := 500,
                     deleted_at := none }] 1 0 = 500 ∧
    claimedTotalMinutes [{ user_id := 1, week_start_date := 10, minutes := 500,
                           deleted_at := none }] 1 0 3 = 0 ∧
    total_minutes [{ user_id := 1, week_start_date := 10, minutes := 500,
                     deleted_at := none }] 1 0
      ≠ claimedTotalMinutes [{ user_id := 1, week_start_date := 10,
                               minutes := 500, deleted_at := none }] 1 0 3 := by
  refine ⟨?_, ?_, ?_⟩ <;> decide

/-- C4 amended: the aggregated total equals the sum of `minutes` over
exactly the user's non-deleted entries with `periodStart ≥ start`;
soft-deleted entries, other users' entries and entries before `start`
contribute nothing, but there is no upper bound, so entries dated after
`now` are included. -/
theorem aggregation_amended (logs : List LogRow) (uid : Nat) (start : Int) :
    total_minutes logs uid start = amendedTotalMinutes logs uid start := by
  induction logs with
  | nil => rfl
  | cons e rest ih =>
    have hiff : logInRange uid start e = true ↔
        (e.user_id = uid ∧ e.deleted_at = none ∧ start ≤ e.week_start_date) := by
      simp only [logInRange, Bool.and_eq_true, decide_eq_true_eq,
        Option.isNone_iff_eq_none]
      tauto
    have hstep : total_minutes (e :: rest) uid start =
        (if e.user_id = uid ∧ e.deleted_at = none ∧ start ≤ e.week_start_date
          then e.minutes else 0) + total_minutes rest uid start := by
      simp only [total_minutes, List.filter_cons]
      by_cases hb : logInRange uid start e = true
      · rw [if_pos hb, if_pos (hiff.mp hb)]
        simp
      · rw [if_neg hb, if_neg (fun hc => hb (hiff.mpr hc))]
        simp
    rw [hstep, ih]
    rfl

/-- In the unsorted ranked rows, every row's stored rank is one plus
the number of ranked rows with strictly greater total. -/
lemma rank_eq_countP_rankedRows (db : DB) (start : Int) (r : LBRow)
    (hr : r ∈ rankedRows db start) :
    r.rank = 1 + (rankedRows db start).countP
      (fun v => decide (r.total_minutes < v.total_minutes)) := by
  obtain ⟨u, hu, rfl⟩ := List.mem_map.mp hr
  show rankOf db start u = _
  rw [rankedRows, List.countP_map]
  rfl

/-- No row of the dropped suffix of the sorted rows has a total strictly
greater than that of a row of the kept prefix. -/
lemma countP_drop_zero (db : DB) (start : Int) (n : Nat) (r : LBRow)
    (hr : r ∈ (sortedRows db start).take n) :
    ((sortedRows db start).drop n).countP
      (fun v => decide (r.total_minutes < v.total_minutes)) = 0 := by
  rw [List.countP_eq_zero]
  intro d hd
  have hsorted : List.Pairwise lbBefore (sortedRows db start) :=
    List.sorted_insertionSort lbBefore (rankedRows db start)
  have hsplit : List.Pairwise lbBefore
      ((sortedRows db start).take n ++ (sortedRows db start).drop n) := by
    rw [List.take_append_drop]; exact hsorted
  have hrel : lbBefore r d :=
    (List.pairwise_append.mp hsplit).2.2 r hr d hd
  simp only [decide_eq_true_eq]
  rcases hrel with h | ⟨h, _⟩
  · omega
  · omega

/-- C5: in every leaderboard result, each row's rank is one plus the
number of result rows with strictly greater total (so equal totals share
a rank), and the rows are ordered by total descending with ties broken
by display name ascending. -/
theorem leaderboard_ranking (db : DB) (period : String) (limit_count : Nat)
    (today : Int) :
    (∀ r ∈ get_leaderboard db period limit_count today,
      r.rank = 1 + (get_leaderboard db period limit_count today).countP
        (fun v => decide (r.total_minutes < v.total_minutes))) ∧
    List.Sorted lbBefore (get_leaderboard db period limit_count today) ∧
    (∀ r ∈ get_leaderboard db period limit_count today,
      ∀ v ∈ get_leaderboard db period limit_count today,
        r.total_minutes = v.total_minutes → r.rank = v.rank) := by
  have hsorted : List.Sorted lbBefore
      (sortedRows db (resolveStartDate period today)) :=
    List.sorted_insertionSort lbBefore _
  have hperm : List.Perm (sortedRows db (resolveStartDate period today))
      (rankedRows db (resolveStartDate period today)) :=
    List.perm_insertionSort lbBefore _
  have hrank : ∀ r ∈ get_leaderboard db period limit_count today,
      r.rank = 1 + (get_leaderboard db period limit_count today).countP
        (fun v => decide (r.total_minutes < v.total_minutes)) := by
    intro r hr
    have hrl : r ∈ sortedRows db (resolveStartDate period today) :=
      List.mem_of_mem_take hr
    have hbase := rank_eq_countP_rankedRows db (resolveStartDate period today)
      r (hperm.subset hrl)
    have hcount : (rankedRows db (resolveStartDate period today)).countP
        (fun v => decide (r.total_minutes < v.total_minutes))
        = (get_leaderboard db period limit_count today).countP
          (fun v => decide (r.total_minutes < v.total_minutes)) := by
      rw [← hperm.countP_eq]
      conv_lhs => rw [← List.take_append_drop limit_count
        (sortedRows db (resolveStartDate period today))]
      rw [List.countP_append,
        countP_drop_zero db (resolveStartDate period today) limit_count r hr]
      simp [get_leaderboard]
    rw [hbase, hcount]
  refine ⟨hrank, ?_, ?_⟩
  · exact List.Pairwise.sublist (List.take_sublist _ _) hsorted
  · intro r hr v hv heq
    rw [hrank r hr, hrank v hv, heq]

/-- A concrete database: visible users A/B/C totalling 120/90/90 in the
current period, invisible user D totalling 500. -/
def db5ex : DB :=
  { users := [{ id := 1, display_name := "A", avatar_url := none, deleted_at := none },
              { id := 2, display_name := "B", avatar_url := none, deleted_at := none },
              { id := 3, display_name := "C", avatar_url := none, deleted_at := none },
              { id := 4, display_name := "D", avatar_url := none, deleted_at := none }],
    logs := [{ user_id := 1, week_start_date := 3, minutes := 120, deleted_at := none },
             { user_id := 2, week_start_date := 3, minutes := 90, deleted_at := none },
             { user_id := 3, week_start_date := 3, minutes := 90, deleted_at := none },
             { user_id := 4, week_start_date := 3, minutes := 500, deleted_at := none }],
    settings := [{ user_id := 4, show_on_leaderboard := false }],
    streaks := [{ user_id := 1, current_streak := 2 }] }

/-- The leaderboard row of user B in `db5ex`. -/
def rowB : LBRow :=
  { user_id := 2, display_name := "B", avatar_url := none,
    total_minutes := 90, current_streak := 0, rank := 2 }

/-- The leaderboard row of user C in `db5ex`. -/
def rowC : LBRow :=
  { user_id := 3, display_name := "C", avatar_url := none,
    total_minutes := 90, current_streak := 0, rank := 2 }

/-- Witness for C5 on `db5ex`: the tied users B and C both carry
rank 2 = 1 + (number of rows of the result with a greater total). -/
theorem leaderboard_ranking_witness :
    rowB.rank = 1 + (get_leaderboard db5ex "daily" 100 3).countP
        (fun v => decide (rowB.total_minutes < v.total_minutes)) ∧
    rowB.rank = rowC.rank := by
  have h := leaderboard_ranking db5ex "daily" 100 3
  exact ⟨h.1 rowB (by decide), h.2.2 rowB (by decide) rowC (by decide) rfl⟩

/-- With every stored `minutes` non-negative (the check constraint), a
user's aggregated total is non-negative. -/
lemma total_minutes_nonneg (logs : List LogRow) (uid : Nat) (start : Int)
    (h : ∀ e ∈ logs, 0 ≤ e.minutes) : 0 ≤ total_minutes logs uid start := by
  apply List.sum_nonneg
  intro x hx
  obtain ⟨e, he, rfl⟩ := List.mem_map.mp hx
  exact h e (List.mem_of_mem_filter he)

/-- The `WHERE` visibility disjunct holds exactly when the flag is not
explicitly false. -/
lemma visible_iff (settings : List SettingsRow) (uid : Nat) :
    visibleOnLeaderboard settings uid = true ↔
      showOnLeaderboard settings uid ≠ some false := by
  unfold visibleOnLeaderboard
  rcases h : showOnLeaderboard settings uid with _ | b
  · simp
  · cases b <;> simp

/-- C6 counterexample: in a database with two live users, both with no
settings row (visible) and positive totals, the call with
`limit_count = 1` omits user 2 although their flag is not false and
their total is 50 ≠ 0. -/
theorem leaderboard_visibility_counterexample :
    (¬ ∃ r ∈ get_leaderboard
        { users := [{ id := 1, display_name := "A", avatar_url := none,
                      deleted_at := none },
                    { id := 2, display_name := "B", avatar_url := none,
                      deleted_at := none }],
          logs := [{ user_id := 1, week_start_date := 3, minutes := 100,
                     deleted_at := none },
                   { user_id := 2, week_start_date := 3, minutes := 50,
                     deleted_at := none }],
          settings := [], streaks := [] } "daily" 1 3, r.user_id = 2) ∧
    showOnLeaderboard ([] : List SettingsRow) 2 ≠ some false ∧
    total_minutes [{ user_id := 1, week_start_date := 3, minutes := 100,
                     deleted_at := none },
                   { user_id := 2, week_start_date := 3, minutes := 50,
                     deleted_at := none }] 2 (resolveStartDate "daily" 3) ≠ 0 := by
  refine ⟨by decide, by decide, by decide⟩

/-- C6 amended: for a non-deleted user, when the stored minutes respect
the check constraint and the limit does not truncate the result, the
leaderboard includes the user exactly when their visibility flag is not
explicitly false and their aggregated total is nonzero.  (A call whose
`limit_count` is smaller than the number of qualifying rows additionally
excludes the users ranked beyond the limit, and soft-deleted users are
always excluded.) -/
theorem leaderboard_visibility_amended (db : DB) (period : String)
    (limit_count : Nat) (today : Int) (u : UserRow)
    (hu : u ∈ db.users) (hlive : u.deleted_at = none)
    (hmin : ∀ e ∈ db.logs, 0 ≤ e.minutes)
    (hlimit : (rankedRows db (resolveStartDate period today)).length
      ≤ limit_count) :
    (∃ r ∈ get_leaderboard db period limit_count today, r.user_id = u.id) ↔
      (showOnLeaderboard db.settings u.id ≠ some false ∧
        total_minutes db.logs u.id (resolveStartDate period today) ≠ 0) := by
  have hperm : List.Perm (sortedRows db (resolveStartDate period today))
      (rankedRows db (resolveStartDate period today)) :=
    List.perm_insertionSort lbBefore _
  have htake : get_leaderboard db period limit_count today
      = sortedRows db (resolveStartDate period today) := by
    unfold get_leaderboard
    exact List.take_of_length_le (by rw [hperm.length_eq]; exact hlimit)
  rw [htake]
  constructor
  · rintro ⟨r, hr, hid⟩
    have hranked : r ∈ rankedRows db (resolveStartDate period today) :=
      hperm.subset hr
    obtain ⟨v, hv, rfl⟩ := List.mem_map.mp hranked
    have hvid : v.id = u.id := hid
    obtain ⟨hvwhere, hvtot⟩ := List.mem_filter.mp hv
    obtain ⟨_, hvflags⟩ := List.mem_filter.mp hvwhere
    have hvis : visibleOnLeaderboard db.settings v.id = true :=
      (Bool.and_eq_true _ _ |>.mp hvflags).2
    have htot : 0 < total_minutes db.logs v.id (resolveStartDate period today) := by
      simpa using hvtot
    rw [hvid] at hvis htot
    exact ⟨(visible_iff db.settings u.id).mp hvis, by omega⟩
  · rintro ⟨hflag, htot⟩
    refine ⟨toLBRow db (resolveStartDate period today) u, ?_, rfl⟩
    apply hperm.mem_iff.mpr
    apply List.mem_map.mpr
    refine ⟨u, ?_, rfl⟩
    apply List.mem_filter.mpr
    constructor
    · apply List.mem_filter.mpr
      refine ⟨hu, ?_⟩
      rw [Bool.and_eq_true]
      constructor
      · rw [hlive]; rfl
      · exact (visible_iff db.settings u.id).mpr hflag
    · have := total_minutes_nonneg db.logs u.id (resolveStartDate period today) hmin
      simp only [decide_eq_true_eq]
      omega

/-- Witness for C6's amended theorem: a single live user with a 100
minute entry in the current period and no settings row is on the
leaderboard. -/
theorem leaderboard_visibility_amended_witness :
    (∃ r ∈ get_leaderboard
        { users := [{ id := 1, display_name := "A", avatar_url := none,
                      deleted_at := none }],
          logs := [{ user_id := 1, week_start_date := 3, minutes := 100,
                     deleted_at := none }],
          settings := [], streaks := [] } "daily" 100 3, r.user_id = 1) ↔
      (showOnLeaderboard ([] : List SettingsRow) 1 ≠ some false ∧
        total_minutes [{ user_id := 1, week_start_date := 3, minutes := 100,
                         deleted_at := none }] 1
          (resolveStartDate "daily" 3) ≠ 0) :=
  leaderboard_visibility_amended
    { users := [{ id := 1, display_name := "A", avatar_url := none,
                  deleted_at := none }],
      logs := [{ user_id := 1, week_start_date := 3, minutes := 100,
                 deleted_at := none }],
      settings := [], streaks := [] } "daily" 100 3
    { id := 1, display_name := "A", avatar_url := none, deleted_at := none }
    (by decide) rfl (by decide) (by decide)

end LeanScreen
